import Mathlib

/-!
Shallow embedding of the CRUD/data-access layer of the software_landschap
repository (`src/methodes/crud_methodes.py`, class `GraphCrud`), together with
proofs of the specified properties.

The graph store (Neo4j) is modelled explicitly: a `GraphStore` holds labelled
nodes and typed directed relationships, each carrying a property map.  Every
`GraphCrud` method becomes a pure Lean function threading the store state and
returning `Except CrudError` for `raise ValueError(...)` paths.  Python values
that flow through the code (property values, the argument of the identifier
sanitizers) are modelled by `PyVal`, with Python truthiness made explicit.
-/

/-- A Python value as it occurs in the property dictionaries and in the
arguments of the sanitizer functions: `None`, a bool, an int, or a string. -/
inductive PyVal where
  | vnone
  | vbool (b : Bool)
  | vint (n : Int)
  | vstr (s : String)
deriving DecidableEq

/-- Python truthiness: `None`, `False`, `0` and `""` are falsy. -/
def PyVal.truthy : PyVal → Bool
  | .vnone => false
  | .vbool b => b
  | .vint n => !(n == 0)
  | .vstr s => !(s == "")

/-- Whether a `PyVal` is a string (Python `isinstance(x, str)`). -/
def PyVal.isStr : PyVal → Bool
  | .vstr _ => true
  | _ => false

/-- A property map (Python `Dict[str, Any]` / a Neo4j node or relationship
property map), as an association list with first-match lookup. -/
abbrev PropMap := List (String × PyVal)

/-- Lookup of a key in a property map (first matching entry). -/
def getProp (m : PropMap) (k : String) : Option PyVal :=
  (m.find? (fun kv => kv.1 == k)).map (fun kv => kv.2)

/-- Python `properties.get(k)`: the value at `k`, or `None` when absent. -/
def pyGet (m : PropMap) (k : String) : PyVal :=
  (getProp m k).getD PyVal.vnone

/-- Python `properties.get(k)` truthiness test (`if properties.get(k):`). -/
def truthyKey (m : PropMap) (k : String) : Bool :=
  (pyGet m k).truthy

/-- Remove every entry for key `k`. -/
def removeProp (m : PropMap) (k : String) : PropMap :=
  m.filter (fun kv => !(kv.1 == k))

/-- Set key `k` to `v` (replacing any previous entry for `k`). -/
def setProp (m : PropMap) (k : String) (v : PyVal) : PropMap :=
  removeProp m k ++ [(k, v)]

/-- Neo4j `SET n += $props`: every key of `props` is written onto `m`;
a `null` value removes the key (Cypher map-addition semantics). -/
def plusEq (m props : PropMap) : PropMap :=
  props.foldl
    (fun acc kv =>
      if kv.2 == PyVal.vnone then removeProp acc kv.1 else setProp acc kv.1 kv.2)
    m

/-- A property map with no `null` values (the shape every caller in the
application produces: form fields are strings). -/
def noNullProps (m : PropMap) : Prop := ∀ kv ∈ m, kv.2 ≠ PyVal.vnone

/-- A property map whose keys are pairwise distinct (a Python dict). -/
def nodupKeys (m : PropMap) : Prop := (m.map Prod.fst).Nodup

/-- The characters stripped by Python `str.strip()` (whitespace,
including the ASCII control whitespace and the common Unicode spaces). -/
def pySpaceChars : List Char :=
  [' ', '\t', '\n', '\r', '\x0b', '\x0c',
   '\x1c', '\x1d', '\x1e', '\x1f', '\x85', '\u00A0', '\u1680',
   '\u2000', '\u2001', '\u2002', '\u2003', '\u2004', '\u2005', '\u2006',
   '\u2007', '\u2008', '\u2009', '\u200A', '\u2028', '\u2029', '\u202F',
   '\u205F', '\u3000']

/-- Whether `c` is stripped by Python `str.strip()`. -/
def isPySpace (c : Char) : Bool := pySpaceChars.contains c

/-- Python `str.strip()` on a list of characters. -/
def pyStripList (l : List Char) : List Char :=
  ((l.dropWhile isPySpace).reverse.dropWhile isPySpace).reverse

/-- Python `str.strip()`. -/
def pyStrip (s : String) : String := ⟨pyStripList s.data⟩

/-- First character of the identifier pattern `[A-Za-z_]`. -/
def identStart (c : Char) : Bool := c.isAlpha || c == '_'

/-- Continuation character of the identifier pattern `[A-Za-z0-9_]`. -/
def identCont (c : Char) : Bool := c.isAlphanum || c == '_'

/-- `re.match(r"^[A-Za-z_][A-Za-z0-9_]*$", s)` succeeds (`$` cannot match
before a trailing newline here because the code only applies the pattern to
stripped strings). -/
def validIdent (s : String) : Bool :=
  match s.data with
  | [] => false
  | c :: cs => identStart c && cs.all identCont

/-- The typed failures of the data-access layer.  `configError` models the
`ValueError` raised by `GraphCrud.__init__` for a missing environment value
(the spec's `ConfigError`), `validationError` the `ValueError` raised for a
missing key property (the spec's `ValidationError`) and `invalidIdentifier`
the `ValueError` raised by the sanitizers (the spec's `InvalidIdentifier`);
the Python messages additionally embed the repr of the offending value. -/
inductive CrudError where
  | configError (varName : String)
  | validationError (msg : String)
  | invalidIdentifier (kind : String)
deriving DecidableEq

/-- `GraphCrud._quote_label`: strip when the argument is a string (otherwise
use `""`), reject when empty or not matching the identifier pattern, and
return the backtick-quoted identifier. -/
def _quote_label (label : PyVal) : Except CrudError String :=
  let s := match label with
    | .vstr str => pyStrip str
    | _ => ""
  if s == "" || !validIdent s then Except.error (CrudError.invalidIdentifier "label")
  else Except.ok ("`" ++ s ++ "`")

/-- `GraphCrud._quote_reltype`: identical validation for relationship types. -/
def _quote_reltype (rel_type : PyVal) : Except CrudError String :=
  let s := match rel_type with
    | .vstr str => pyStrip str
    | _ => ""
  if s == "" || !validIdent s then Except.error (CrudError.invalidIdentifier "relationship type")
  else Except.ok ("`" ++ s ++ "`")

/-- A node of the graph store: element id, label, property map. -/
structure Node where
  nid : Nat
  label : String
  props : PropMap
deriving DecidableEq

/-- A relationship of the graph store: element id, start node id, end node
id, relationship type, property map. -/
structure Edge where
  rid : Nat
  src : Nat
  dst : Nat
  typ : String
  props : PropMap
deriving DecidableEq

/-- The graph store: nodes, relationships, and the next fresh element id. -/
structure GraphStore where
  nodes : List Node
  rels : List Edge
  nextId : Nat
deriving DecidableEq

/-- `MATCH (n:label \x7bkey: $v\x7d) RETURN ... LIMIT`-style single lookup:
the first node carrying the label whose property `key` equals `v`
(`.single()` returns the first record). -/
def findNodeByProp (st : GraphStore) (lbl key : String) (v : PyVal) : Option Node :=
  st.nodes.find? (fun n => n.label == lbl && getProp n.props key == some v)

/-- `MATCH (n) WHERE elementId(n) = $node_id SET n += $props`. -/
def updateNodeProps (st : GraphStore) (nid : Nat) (props : PropMap) : GraphStore :=
  { st with
    nodes := st.nodes.map
      (fun n => if n.nid == nid then { n with props := plusEq n.props props } else n) }

/-- `GraphCrud.create_node` (the spec's `upsertNode`).  Validation, then:
look up an existing node by label + `name` when `name` is truthy and update
it in place; otherwise `MERGE` on `emailaddress` when truthy, else on
`name`, applying `SET n += $props` on both the create and the match branch.
Identifier quoting happens inside the session, before the first query. -/
def create_node (label : String) (properties : PropMap) (st : GraphStore) :
    Except CrudError (Nat × GraphStore) :=
  if !truthyKey properties "emailaddress" && !truthyKey properties "name" then
    Except.error (CrudError.validationError
      "At least one of emailaddress or name must be provided for matching.")
  else
    match _quote_label (PyVal.vstr label) with
    | Except.error e => Except.error e
    | Except.ok _ =>
      match (if truthyKey properties "name" then
               findNodeByProp st (pyStrip label) "name" (pyGet properties "name")
             else none) with
      | some nd => Except.ok (nd.nid, updateNodeProps st nd.nid properties)
      | none =>
        let mergeKey := if truthyKey properties "emailaddress" then "emailaddress" else "name"
        let mergeValue := pyGet properties mergeKey
        match findNodeByProp st (pyStrip label) mergeKey mergeValue with
        | some nd => Except.ok (nd.nid, updateNodeProps st nd.nid properties)
        | none =>
          Except.ok (st.nextId,
            { st with
              nodes := st.nodes ++
                [{ nid := st.nextId, label := pyStrip label,
                   props := plusEq [(mergeKey, mergeValue)] properties }],
              nextId := st.nextId + 1 })

/-- `GraphCrud.insert_node` (the spec's `insertNode`): insert-only variant;
returns `none` (skip, no mutation) when a node with the same label and
`name` already exists, otherwise `CREATE` a fresh node and `SET n += $props`. -/
def insert_node (label : String) (properties : PropMap) (st : GraphStore) :
    Except CrudError (Option Nat × GraphStore) :=
  if !(pyGet properties "name").truthy then
    Except.error (CrudError.validationError "name must be provided for insert_node().")
  else
    match _quote_label (PyVal.vstr label) with
    | Except.error e => Except.error e
    | Except.ok _ =>
      match findNodeByProp st (pyStrip label) "name" (pyGet properties "name") with
      | some _ => Except.ok (none, st)
      | none =>
        Except.ok (some st.nextId,
          { st with
            nodes := st.nodes ++
              [{ nid := st.nextId, label := pyStrip label, props := plusEq [] properties }],
            nextId := st.nextId + 1 })

/-- Sort key giving a total order on `PyVal` that restricts to the
code-point lexicographic order on strings (the order Python `sorted` uses
on the all-string name lists the application produces; Python itself raises
`TypeError` when asked to compare values of different types). -/
def pyValKey (v : PyVal) : Nat ×ₗ Int ×ₗ String :=
  match v with
  | .vnone => toLex (0, toLex (0, ""))
  | .vbool b => toLex (1, toLex (if b then 1 else 0, ""))
  | .vint n => toLex (2, toLex (n, ""))
  | .vstr s => toLex (3, toLex (0, s))

/-- The comparison relation used to model Python `sorted`. -/
def pyLe (a b : PyVal) : Prop := pyValKey a ≤ pyValKey b

instance : DecidableRel pyLe := fun a b => inferInstanceAs (Decidable (pyValKey a ≤ pyValKey b))

instance : IsTotal PyVal pyLe := ⟨fun a b => le_total (pyValKey a) (pyValKey b)⟩

instance : IsTrans PyVal pyLe := ⟨fun _ _ _ h₁ h₂ => le_trans h₁ h₂⟩

/-- `GraphCrud.get_nodes_by_type` (the spec's `getNodeNamesByType`):
`MATCH (n:label) RETURN DISTINCT n.name`, keep the truthy values in a set
(`if record["name"]: nodes.add(...)`), and return `sorted(list(nodes))`. -/
def get_nodes_by_type (node_type : String) (st : GraphStore) :
    Except CrudError (List PyVal) :=
  match _quote_label (PyVal.vstr node_type) with
  | Except.error e => Except.error e
  | Except.ok _ =>
    let names := (st.nodes.filter (fun n => n.label == pyStrip node_type)).filterMap
      (fun n => getProp n.props "name")
    Except.ok (List.insertionSort pyLe (names.filter PyVal.truthy).dedup)

/-- Modelled from the spec (C6 comparator): the name listing as the spec
states it — "every distinct non-null `name` value among nodes of `label`,
deduplicated, lexicographically ordered".  A node with no `name` property
has a null name in Cypher and is excluded; an empty-string name is non-null
and is therefore kept by this definition. -/
def specNodeNamesByType (node_type : String) (st : GraphStore) : List PyVal :=
  let names := (st.nodes.filter (fun n => n.label == pyStrip node_type)).filterMap
    (fun n => getProp n.props "name")
  List.insertionSort pyLe (names.filter (fun v => !(v == PyVal.vnone))).dedup

/-- `GraphCrud.delete_node` (the spec's `deleteNode`): require a non-empty
`name`, then `MATCH (n:label \x7bname: $name\x7d) DETACH DELETE n` and report
whether the summary counted any deleted node. -/
def delete_node (label : String) (name : String) (st : GraphStore) :
    Except CrudError (Bool × GraphStore) :=
  if name == "" then
    Except.error (CrudError.validationError "name must be provided to delete a node.")
  else
    match _quote_label (PyVal.vstr label) with
    | Except.error e => Except.error e
    | Except.ok _ =>
      let hit := fun (n : Node) =>
        n.label == pyStrip label && getProp n.props "name" == some (PyVal.vstr name)
      let deletedIds := (st.nodes.filter hit).map Node.nid
      Except.ok (decide (0 < deletedIds.length),
        { st with
          nodes := st.nodes.filter (fun n => !(hit n)),
          rels := st.rels.filter
            (fun r => !(deletedIds.contains r.src) && !(deletedIds.contains r.dst)) })

/-- One `MERGE (a)-[r:typ]->(b) SET r += $properties` step: match the first
existing relationship of `typ` from `aId` to `bId`, else create one, and
apply the property overwrite; returns the relationship id. -/
def mergeRel (st : GraphStore) (aId bId : Nat) (rt : String) (props : PropMap) :
    Nat × GraphStore :=
  match st.rels.find? (fun r => r.src == aId && r.dst == bId && r.typ == rt) with
  | some r =>
    (r.rid,
     { st with
       rels := st.rels.map
         (fun r' => if r'.rid == r.rid then { r' with props := plusEq r'.props props } else r') })
  | none =>
    (st.nextId,
     { st with
       rels := st.rels ++ [{ rid := st.nextId, src := aId, dst := bId, typ := rt,
                             props := plusEq [] props }],
       nextId := st.nextId + 1 })

/-- `GraphCrud.create_relation_by_name` (the spec's `createRelationship`):
quote the three identifiers, `MATCH` both endpoints by label + `name`
(every matching pair — a cartesian product row set), `MERGE` the edge and
`SET r += $properties` for every row, and return the relationship id of the
first row, or `None` when either endpoint is missing (zero rows). -/
def create_relation_by_name (start_label start_name end_label end_name
    relationship_type : String) (properties : Option PropMap) (st : GraphStore) :
    Except CrudError (Option Nat × GraphStore) :=
  match _quote_label (PyVal.vstr start_label) with
  | Except.error e => Except.error e
  | Except.ok _ =>
    match _quote_label (PyVal.vstr end_label) with
    | Except.error e => Except.error e
    | Except.ok _ =>
      match _quote_reltype (PyVal.vstr relationship_type) with
      | Except.error e => Except.error e
      | Except.ok _ =>
        let props := properties.getD []
        let starts := st.nodes.filter (fun n =>
          n.label == pyStrip start_label && getProp n.props "name" == some (PyVal.vstr start_name))
        let ends := st.nodes.filter (fun n =>
          n.label == pyStrip end_label && getProp n.props "name" == some (PyVal.vstr end_name))
        match starts.flatMap (fun a => ends.map (fun b => (a, b))) with
        | [] => Except.ok (none, st)
        | first :: rest =>
          let step1 := mergeRel st first.1.nid first.2.nid (pyStrip relationship_type) props
          let stFinal := rest.foldl
            (fun acc p => (mergeRel acc p.1.nid p.2.nid (pyStrip relationship_type) props).2)
            step1.2
          Except.ok (some step1.1, stFinal)

/-- The connection settings captured by `GraphDatabase.driver(...)` in
`GraphCrud.__init__` when construction succeeds. -/
structure DriverConfig where
  uri : String
  username : String
  password : String
  poolSize : Int
  connTimeout : Int
  maxLifetime : Int
deriving DecidableEq

/-- Tail of a Python integer-literal digit run: digits with single
underscores allowed strictly between digits. -/
def digitRunTail : List Char → Bool
  | [] => true
  | '_' :: c :: rest => c.isDigit && digitRunTail rest
  | '_' :: [] => false
  | c :: rest => c.isDigit && digitRunTail rest

/-- A valid Python integer digit run (non-empty). -/
def digitRun : List Char → Bool
  | [] => false
  | c :: rest => c.isDigit && digitRunTail rest

/-- Numeric value of a digit run (underscores already removed). -/
def digitsVal (cs : List Char) : Nat :=
  cs.foldl (fun acc c => acc * 10 + (c.toNat - '0'.toNat)) 0

/-- Python `int(s)` on a decimal string: strip, optional sign, digit run. -/
def pyParseInt (s : String) : Option Int :=
  match (pyStrip s).data with
  | '+' :: rest => if digitRun rest then some (digitsVal (rest.filter (fun c => !(c == '_')))) else none
  | '-' :: rest => if digitRun rest then some (-(digitsVal (rest.filter (fun c => !(c == '_'))) : Int)) else none
  | t => if digitRun t then some (digitsVal (t.filter (fun c => !(c == '_')))) else none

/-- `GraphCrud.__init__`'s `_int_env`: `int(os.getenv(name, default))` with
any exception replaced by the default (unset returns the int default). -/
def intEnv (v : Option String) (dflt : Int) : Int :=
  match v with
  | none => dflt
  | some s => (pyParseInt s).getD dflt

/-- Python truthiness of an optional environment value (`not uri` is true
both when the variable is unset and when it is set to the empty string). -/
def optTruthy (v : Option String) : Bool :=
  match v with
  | none => false
  | some s => !(s == "")

/-- `GraphCrud.__init__` (the spec's Connection Manager construction):
read `NEO4J_URI`, `NEO4J_USERNAME`, `NEO4J_PASSWORD`, raise for the first
falsy one, read the three tuning knobs with defaults 100/30/3600 and build
the driver configuration. -/
def graphCrudInit (uri username password poolSize connTimeout maxLifetime : Option String) :
    Except CrudError DriverConfig :=
  if !optTruthy uri then Except.error (CrudError.configError "NEO4J_URI")
  else if !optTruthy username then Except.error (CrudError.configError "NEO4J_USERNAME")
  else if !optTruthy password then Except.error (CrudError.configError "NEO4J_PASSWORD")
  else
    Except.ok
      { uri := uri.getD "", username := username.getD "", password := password.getD "",
        poolSize := intEnv poolSize 100, connTimeout := intEnv connTimeout 30,
        maxLifetime := intEnv maxLifetime 3600 }

/-- Store well-formedness: every element id already in the store is below
the fresh-id counter. -/
def freshIds (st : GraphStore) : Prop :=
  (∀ n ∈ st.nodes, n.nid < st.nextId) ∧ (∀ r ∈ st.rels, r.rid < st.nextId)

/-- The merge key `create_node` selects for its `MERGE` branch:
`emailaddress` when truthy, else `name`. -/
def mergeKeyOf (q : PropMap) : String :=
  if truthyKey q "emailaddress" then "emailaddress" else "name"

instance (m : PropMap) : Decidable (noNullProps m) := by
  unfold noNullProps
  infer_instance

instance (m : PropMap) : Decidable (nodupKeys m) := by
  unfold nodupKeys
  infer_instance

instance (st : GraphStore) : Decidable (freshIds st) := by
  unfold freshIds
  infer_instance

/-- Decidable equality of results (used to evaluate concrete runs). -/
instance {e a : Type} [DecidableEq e] [DecidableEq a] : DecidableEq (Except e a) := fun x y =>
  match x, y with
  | Except.ok v, Except.ok w =>
    if h : v = w then Decidable.isTrue (by rw [h])
    else Decidable.isFalse (fun hc => h (Except.ok.inj hc))
  | Except.error v, Except.error w =>
    if h : v = w then Decidable.isTrue (by rw [h])
    else Decidable.isFalse (fun hc => h (Except.error.inj hc))
  | Except.ok _, Except.error _ => Decidable.isFalse (fun hc => Except.noConfusion hc)
  | Except.error _, Except.ok _ => Decidable.isFalse (fun hc => Except.noConfusion hc)

/-- Whether a result is the `ConfigError` failure. -/
def isConfigError (r : Except CrudError DriverConfig) : Bool :=
  match r with
  | Except.error (CrudError.configError _) => true
  | _ => false

/-- Whether a result of `delete_node` is the `ValidationError` failure. -/
def isValidationError (r : Except CrudError (Bool × GraphStore)) : Bool :=
  match r with
  | Except.error (CrudError.validationError _) => true
  | _ => false

/-- The empty graph store. -/
def emptyStore : GraphStore := { nodes := [], rels := [], nextId := 0 }

/-- A store with one `fase` node named "A" and one `role` node named "B". -/
def pairStore : GraphStore :=
  { nodes := [{ nid := 0, label := "fase", props := [("name", PyVal.vstr "A")] },
              { nid := 1, label := "role", props := [("name", PyVal.vstr "B")] }],
    rels := [], nextId := 2 }

/-- A store holding a single `fase` node whose `name` property is the empty
string (reachable through `create_node` with a truthy `emailaddress` and an
empty `name`). -/
def emptyNameStore : GraphStore :=
  { nodes := [{ nid := 0, label := "fase",
                props := [("name", PyVal.vstr ""), ("emailaddress", PyVal.vstr "e")] }],
    rels := [], nextId := 1 }

/-! ### Basic property-map lemmas -/

theorem getProp_cons (kv : String × PyVal) (rest : PropMap) (k : String) :
    getProp (kv :: rest) k = if kv.1 == k then some kv.2 else getProp rest k := by
  cases h : kv.1 == k <;> simp [getProp, List.find?_cons, h]

theorem removeProp_cons (kv : String × PyVal) (rest : PropMap) (k : String) :
    removeProp (kv :: rest) k =
      if kv.1 == k then removeProp rest k else kv :: removeProp rest k := by
  cases h : kv.1 == k <;> simp [removeProp, List.filter_cons, h]

theorem getProp_removeProp (m : PropMap) (k k' : String) :
    getProp (removeProp m k) k' = if k' = k then none else getProp m k' := by
  induction m with
  | nil => by_cases h : k' = k <;> simp [getProp, removeProp, h]
  | cons kv rest ih =>
    rw [removeProp_cons]
    by_cases h1 : (kv.1 == k) = true
    · have e1 : kv.1 = k := by simpa [beq_iff_eq] using h1
      rw [if_pos h1, ih, getProp_cons]
      by_cases h2 : k' = k
      · simp [h2]
      · have hne : (kv.1 == k') = false := by
          rw [e1]; exact beq_eq_false_iff_ne.mpr (fun e => h2 e.symm)
        simp [h2, hne]
    · have e1 : kv.1 ≠ k := by simpa [beq_iff_eq] using h1
      rw [if_neg h1, getProp_cons, getProp_cons]
      by_cases h2 : (kv.1 == k') = true
      · have e2 : kv.1 = k' := by simpa [beq_iff_eq] using h2
        have hk : ¬ k' = k := by rw [← e2]; exact e1
        simp [h2, hk]
      · simp [h2, ih]

theorem getProp_append (l₁ l₂ : PropMap) (k : String) :
    getProp (l₁ ++ l₂) k = (getProp l₁ k).or (getProp l₂ k) := by
  unfold getProp
  rw [List.find?_append]
  cases l₁.find? fun kv => kv.1 == k <;> simp

theorem getProp_setProp (m : PropMap) (k : String) (v : PyVal) (k' : String) :
    getProp (setProp m k v) k' = if k' = k then some v else getProp m k' := by
  unfold setProp
  rw [getProp_append, getProp_removeProp]
  by_cases h : k' = k
  · simp [h, getProp_cons]
  · have hne : (k == k') = false := beq_eq_false_iff_ne.mpr (fun e => h e.symm)
    simp [h, getProp_cons, hne, getProp]

theorem getProp_eq_none_of_not_mem_keys {m : PropMap} {k : String}
    (h : k ∉ m.map Prod.fst) : getProp m k = none := by
  induction m with
  | nil => rfl
  | cons kv rest ih =>
    simp only [List.map_cons, List.mem_cons] at h
    push_neg at h
    rw [getProp_cons, if_neg (by simp [beq_iff_eq]; exact fun e => h.1 e.symm)]
    exact ih h.2

theorem getProp_plusEq (props : PropMap) (m : PropMap) (k : String)
    (hnn : noNullProps props) (hnd : nodupKeys props) :
    getProp (plusEq m props) k = (getProp props k).or (getProp m k) := by
  induction props generalizing m with
  | nil => simp [plusEq, getProp]
  | cons kv rest ih =>
    have hkv : kv.2 ≠ PyVal.vnone := hnn kv (by simp)
    have hnn' : noNullProps rest := fun x hx => hnn x (by simp [hx])
    have hnd1 : (kv.1 :: rest.map Prod.fst).Nodup := by
      have h0 := hnd
      unfold nodupKeys at h0
      rwa [List.map_cons] at h0
    obtain ⟨hkmem, hnd'⟩ := List.nodup_cons.mp hnd1
    have hstep : plusEq m (kv :: rest) = plusEq (setProp m kv.1 kv.2) rest := by
      simp [plusEq, List.foldl_cons, hkv]
    rw [hstep, ih _ hnn' hnd', getProp_setProp, getProp_cons]
    by_cases hk : kv.1 = k
    · subst hk
      rw [getProp_eq_none_of_not_mem_keys hkmem]
      simp
    · have hne : (kv.1 == k) = false := beq_eq_false_iff_ne.mpr hk
      have hne' : ¬ k = kv.1 := fun e => hk e.symm
      simp [hne, hne']

theorem truthyKey_eq_true_iff (m : PropMap) (k : String) :
    truthyKey m k = true ↔ ∃ v, getProp m k = some v ∧ v.truthy = true := by
  unfold truthyKey pyGet
  cases h : getProp m k <;> simp [PyVal.truthy]

/-! ### Sanitizer lemmas -/

theorem pySpace_not_identCont : ∀ c ∈ pySpaceChars, identCont c = false := by decide

theorem not_pySpace_of_identCont {c : Char} (h : identCont c = true) : isPySpace c = false := by
  cases hc : isPySpace c
  · rfl
  · have hm : c ∈ pySpaceChars := by simpa [isPySpace] using hc
    exact absurd h (by simp [pySpace_not_identCont c hm])

theorem identCont_of_identStart {c : Char} (h : identStart c = true) : identCont c = true := by
  simp only [identStart, Bool.or_eq_true] at h
  simp only [identCont, Char.isAlphanum, Bool.or_eq_true]
  tauto

theorem dropWhile_eq_self_of_forall {α : Type} {p : α → Bool} {l : List α}
    (h : ∀ x ∈ l, p x = false) : l.dropWhile p = l := by
  cases l with
  | nil => rfl
  | cons a t => rw [List.dropWhile_cons, h a (by simp)]; simp

theorem pyStripList_eq_self {l : List Char} (h : ∀ x ∈ l, isPySpace x = false) :
    pyStripList l = l := by
  unfold pyStripList
  rw [dropWhile_eq_self_of_forall h,
      dropWhile_eq_self_of_forall (fun x hx => h x (List.mem_reverse.mp hx))]
  exact List.reverse_reverse l

theorem validIdent_all_not_space {s : String} (h : validIdent s = true) :
    ∀ x ∈ s.data, isPySpace x = false := by
  unfold validIdent at h
  cases hd : s.data with
  | nil => intro x hx; exact absurd hx (List.not_mem_nil x)
  | cons c cs =>
    rw [hd] at h
    have h12 : identStart c = true ∧ ∀ x ∈ cs, identCont x = true := by simpa using h
    intro x hx
    rcases List.mem_cons.mp hx with rfl | hx'
    · exact not_pySpace_of_identCont (identCont_of_identStart h12.1)
    · exact not_pySpace_of_identCont (h12.2 x hx')

theorem pyStrip_eq_self_of_validIdent {s : String} (h : validIdent s = true) :
    pyStrip s = s := by
  show String.mk (pyStripList s.data) = s
  rw [pyStripList_eq_self (validIdent_all_not_space h)]

theorem validIdent_ne_empty {s : String} (h : validIdent s = true) : s ≠ "" := by
  intro e
  rw [e] at h
  exact absurd h (by decide)

theorem quote_label_ok {s : String} (h : validIdent (pyStrip s) = true) :
    _quote_label (PyVal.vstr s) = Except.ok ("`" ++ pyStrip s ++ "`") := by
  have h1 : (pyStrip s == "") = false := by
    simpa [beq_iff_eq] using validIdent_ne_empty h
  simp [_quote_label, h1, h]

theorem quote_label_err {s : String} (h : validIdent (pyStrip s) = false) :
    _quote_label (PyVal.vstr s) = Except.error (CrudError.invalidIdentifier "label") := by
  simp [_quote_label, h]

theorem quote_reltype_ok {s : String} (h : validIdent (pyStrip s) = true) :
    _quote_reltype (PyVal.vstr s) = Except.ok ("`" ++ pyStrip s ++ "`") := by
  have h1 : (pyStrip s == "") = false := by
    simpa [beq_iff_eq] using validIdent_ne_empty h
  simp [_quote_reltype, h1, h]

theorem quote_reltype_err {s : String} (h : validIdent (pyStrip s) = false) :
    _quote_reltype (PyVal.vstr s) =
      Except.error (CrudError.invalidIdentifier "relationship type") := by
  simp [_quote_reltype, h]

theorem string_append_cancel {a b s₁ s₂ : String}
    (h : a ++ s₁ ++ b = a ++ s₂ ++ b) : s₁ = s₂ := by
  have hd := congrArg String.data h
  simp only [String.data_append] at hd
  exact String.ext (List.append_cancel_left (List.append_cancel_right hd))

theorem findNodeByProp_eq_none {st : GraphStore} {lbl key : String} {v : PyVal} :
    findNodeByProp st lbl key v = none ↔
      ∀ n ∈ st.nodes, ¬(n.label = lbl ∧ getProp n.props key = some v) := by
  unfold findNodeByProp
  rw [List.find?_eq_none]
  simp [beq_iff_eq]

/-! ### Claim theorems -/

/-- C2: the identifier sanitizers succeed exactly on strings that, after
trimming, are non-empty and match `^[A-Za-z_][A-Za-z0-9_]*$`, returning the
backtick-quoted identifier; on pattern-matching strings quoting is
injective; every other string fails with `InvalidIdentifier`. -/
theorem c2_quote_identifier_spec :
    (∀ s : String, (∃ q, _quote_label (PyVal.vstr s) = Except.ok q)
        ↔ validIdent (pyStrip s) = true)
    ∧ (∀ s : String, validIdent (pyStrip s) = true →
        _quote_label (PyVal.vstr s) = Except.ok ("`" ++ pyStrip s ++ "`")
        ∧ _quote_reltype (PyVal.vstr s) = Except.ok ("`" ++ pyStrip s ++ "`"))
    ∧ (∀ s₁ s₂ : String, validIdent s₁ = true → validIdent s₂ = true →
        _quote_label (PyVal.vstr s₁) = _quote_label (PyVal.vstr s₂) → s₁ = s₂)
    ∧ (∀ s : String, validIdent (pyStrip s) = false →
        _quote_label (PyVal.vstr s) = Except.error (CrudError.invalidIdentifier "label")
        ∧ _quote_reltype (PyVal.vstr s) =
            Except.error (CrudError.invalidIdentifier "relationship type")) := by
  refine ⟨?_, ?_, ?_, ?_⟩
  · intro s
    constructor
    · rintro ⟨q, hq⟩
      cases hv : validIdent (pyStrip s)
      · rw [quote_label_err hv] at hq
        cases hq
      · rfl
    · intro hv
      exact ⟨_, quote_label_ok hv⟩
  · intro s hv
    exact ⟨quote_label_ok hv, quote_reltype_ok hv⟩
  · intro s₁ s₂ h1 h2 heq
    have e1 : pyStrip s₁ = s₁ := pyStrip_eq_self_of_validIdent h1
    have e2 : pyStrip s₂ = s₂ := pyStrip_eq_self_of_validIdent h2
    rw [quote_label_ok (by rw [e1]; exact h1), quote_label_ok (by rw [e2]; exact h2),
        e1, e2] at heq
    exact string_append_cancel (Except.ok.inj heq)
  · intro s hv
    exact ⟨quote_label_err hv, quote_reltype_err hv⟩

theorem c2_quote_identifier_spec_witness :
    (_quote_label (PyVal.vstr " fase ") = Except.ok ("`" ++ pyStrip " fase " ++ "`")
      ∧ _quote_reltype (PyVal.vstr " fase ") = Except.ok ("`" ++ pyStrip " fase " ++ "`"))
    ∧ (_quote_label (PyVal.vstr "9bad") = Except.error (CrudError.invalidIdentifier "label")
      ∧ _quote_reltype (PyVal.vstr "9bad") =
          Except.error (CrudError.invalidIdentifier "relationship type")) :=
  ⟨c2_quote_identifier_spec.2.1 " fase " (by decide),
   c2_quote_identifier_spec.2.2.2 "9bad" (by decide)⟩

/-- C10: the identifier sanitizers are total over arbitrary values: every
non-string argument is rejected with the same `InvalidIdentifier` failure
used for malformed strings, never an uncaught type error. -/
theorem c10_sanitizers_total (v : PyVal) (h : v.isStr = false) :
    _quote_label v = Except.error (CrudError.invalidIdentifier "label")
    ∧ _quote_reltype v = Except.error (CrudError.invalidIdentifier "relationship type")
    ∧ _quote_label v = _quote_label (PyVal.vstr "1bad")
    ∧ _quote_reltype v = _quote_reltype (PyVal.vstr "1bad") := by
  cases v with
  | vstr s => exact absurd h (by simp [PyVal.isStr])
  | vnone => exact ⟨rfl, rfl, rfl, rfl⟩
  | vbool b => exact ⟨rfl, rfl, rfl, rfl⟩
  | vint n => exact ⟨rfl, rfl, rfl, rfl⟩

theorem c10_sanitizers_total_witness :
    _quote_label PyVal.vnone = Except.error (CrudError.invalidIdentifier "label")
    ∧ _quote_reltype PyVal.vnone = Except.error (CrudError.invalidIdentifier "relationship type")
    ∧ _quote_label PyVal.vnone = _quote_label (PyVal.vstr "1bad")
    ∧ _quote_reltype PyVal.vnone = _quote_reltype (PyVal.vstr "1bad") :=
  c10_sanitizers_total PyVal.vnone rfl

/-- C9 counterexample: all three configuration values are present (set in
the environment), yet construction fails, because the URI is present but
empty — refuting "when all three are present, construction succeeds". -/
theorem c9_counterexample :
    (some "").isSome = true ∧ (some "neo4j").isSome = true ∧ (some "pw").isSome = true
    ∧ graphCrudInit (some "") (some "neo4j") (some "pw") none none none
        = Except.error (CrudError.configError "NEO4J_URI") :=
  ⟨rfl, rfl, rfl, rfl⟩

/-- C9 (amended): construction fails with a descriptive `ConfigError` if and
only if one of URI/username/password is absent or empty (Python falsiness of
`os.getenv`), the error naming the first such variable, and no driver
configuration is produced; when all three are present and non-empty it
succeeds with the given values and the tuning defaults 100/30/3600. -/
theorem c9_config_error_iff (uri username password ps ct ml : Option String) :
    (isConfigError (graphCrudInit uri username password ps ct ml) = true
      ↔ (optTruthy uri = false ∨ optTruthy username = false ∨ optTruthy password = false))
    ∧ (optTruthy uri = false →
        graphCrudInit uri username password ps ct ml
          = Except.error (CrudError.configError "NEO4J_URI"))
    ∧ (optTruthy uri = true → optTruthy username = false →
        graphCrudInit uri username password ps ct ml
          = Except.error (CrudError.configError "NEO4J_USERNAME"))
    ∧ (optTruthy uri = true → optTruthy username = true → optTruthy password = false →
        graphCrudInit uri username password ps ct ml
          = Except.error (CrudError.configError "NEO4J_PASSWORD"))
    ∧ (optTruthy uri = true → optTruthy username = true → optTruthy password = true →
        graphCrudInit uri username password ps ct ml = Except.ok
          { uri := uri.getD "", username := username.getD "", password := password.getD "",
            poolSize := intEnv ps 100, connTimeout := intEnv ct 30,
            maxLifetime := intEnv ml 3600 }) := by
  cases h1 : optTruthy uri <;> cases h2 : optTruthy username <;>
    cases h3 : optTruthy password <;>
    simp [graphCrudInit, isConfigError, h1, h2, h3]

theorem c9_config_error_iff_witness :
    graphCrudInit (some "bolt") (some "neo4j") (some "pw") (some "7") none none
      = Except.ok
        { uri := (some "bolt").getD "", username := (some "neo4j").getD "",
          password := (some "pw").getD "",
          poolSize := intEnv (some "7") 100, connTimeout := intEnv none 30,
          maxLifetime := intEnv none 3600 } :=
  (c9_config_error_iff (some "bolt") (some "neo4j") (some "pw") (some "7") none none).2.2.2.2
    rfl rfl rfl

theorem filter_nodes_eq_nil {st : GraphStore} {lbl nm : String}
    (h : ∀ n ∈ st.nodes, ¬(n.label = lbl ∧ getProp n.props "name" = some (PyVal.vstr nm))) :
    st.nodes.filter
      (fun n => n.label == lbl && getProp n.props "name" == some (PyVal.vstr nm)) = [] := by
  rw [List.filter_eq_nil_iff]
  intro n hn
  simpa [beq_iff_eq] using h n hn

/-- C7: `delete_node` fails with `ValidationError` exactly when `name` is
empty; for a non-empty `name` matching no node of a valid label it returns
`false` (zero deletions) without raising and leaves the store unchanged. -/
theorem c7_delete_node_spec :
    (∀ (label name : String) (st : GraphStore),
        isValidationError (delete_node label name st) = true ↔ name = "")
    ∧ (∀ (label name : String) (st : GraphStore),
        validIdent (pyStrip label) = true → name ≠ "" →
        (∀ n ∈ st.nodes,
          ¬(n.label = pyStrip label ∧ getProp n.props "name" = some (PyVal.vstr name))) →
        delete_node label name st = Except.ok (false, st)) := by
  constructor
  · intro label name st
    by_cases hn : name = ""
    · simp [delete_node, hn, isValidationError]
    · have hb : (name == "") = false := beq_eq_false_iff_ne.mpr hn
      cases hv : validIdent (pyStrip label)
      · simp [delete_node, hb, quote_label_err hv, isValidationError, hn]
      · simp [delete_node, hb, quote_label_ok hv, isValidationError, hn]
  · intro label name st hv hn hmiss
    have hb : (name == "") = false := beq_eq_false_iff_ne.mpr hn
    have hf := filter_nodes_eq_nil hmiss
    have hkeep : st.nodes.filter
        (fun n => !(n.label == pyStrip label
          && getProp n.props "name" == some (PyVal.vstr name))) = st.nodes := by
      rw [List.filter_eq_self]
      intro n hnmem
      have hmn := hmiss n hnmem
      by_cases h1 : n.label = pyStrip label
      · have h2 : getProp n.props "name" ≠ some (PyVal.vstr name) := fun hc => hmn ⟨h1, hc⟩
        simp [beq_iff_eq, h1, h2]
      · simp [beq_iff_eq, h1]
    simp only [delete_node, hb, Bool.false_eq_true, if_false, quote_label_ok hv]
    rw [hf, hkeep]
    simp

theorem c7_delete_node_spec_witness :
    (isValidationError (delete_node "fase" "" emptyStore) = true ↔ ("" : String) = "")
    ∧ delete_node "fase" "X" emptyStore = Except.ok (false, emptyStore) :=
  ⟨c7_delete_node_spec.1 "fase" "" emptyStore,
   c7_delete_node_spec.2 "fase" "X" emptyStore (by decide) (by decide) (by decide)⟩

/-- C6 counterexample: a `fase` node whose `name` is the empty string — a
non-null value, reachable through `create_node` with a truthy
`emailaddress` — is dropped by `get_nodes_by_type` (Python truthiness
filter), while the specified "every distinct non-null name value" listing
(`specNodeNamesByType`) keeps it. -/
theorem c6_counterexample :
    create_node "fase" [("name", PyVal.vstr ""), ("emailaddress", PyVal.vstr "e")] emptyStore
      = Except.ok (0, emptyNameStore)
    ∧ get_nodes_by_type "fase" emptyNameStore = Except.ok []
    ∧ specNodeNamesByType "fase" emptyNameStore = [PyVal.vstr ""]
    ∧ get_nodes_by_type "fase" emptyNameStore
        ≠ Except.ok (specNodeNamesByType "fase" emptyNameStore) := by
  refine ⟨by decide, by decide, by decide, by decide⟩

/-- C6 (amended): for every valid label, `get_nodes_by_type` succeeds and
returns a duplicate-free, sorted list containing exactly the truthy (non-null
and non-falsy, so in particular non-empty-string) `name` values among nodes
of that label; when no such nodes exist the result is the empty list rather
than a failure. -/
theorem c6_get_node_names_amended (node_type : String) (st : GraphStore)
    (h : validIdent (pyStrip node_type) = true) :
    ∃ l, get_nodes_by_type node_type st = Except.ok l
      ∧ List.Sorted pyLe l
      ∧ l.Nodup
      ∧ ∀ v, v ∈ l ↔ (v.truthy = true ∧
          ∃ n ∈ st.nodes, n.label = pyStrip node_type ∧ getProp n.props "name" = some v) := by
  refine ⟨List.insertionSort pyLe
      ((((st.nodes.filter (fun n => n.label == pyStrip node_type)).filterMap
        (fun n => getProp n.props "name")).filter PyVal.truthy).dedup),
    by simp only [get_nodes_by_type, quote_label_ok h], ?_, ?_, ?_⟩
  · exact List.sorted_insertionSort pyLe _
  · exact (List.perm_insertionSort pyLe _).nodup_iff.mpr (List.nodup_dedup _)
  · intro v
    simp only [List.mem_insertionSort, List.mem_dedup, List.mem_filter,
      List.mem_filterMap, beq_iff_eq]
    tauto

theorem c6_get_node_names_amended_witness :
    ∃ l, get_nodes_by_type "fase" pairStore = Except.ok l
      ∧ List.Sorted pyLe l
      ∧ l.Nodup
      ∧ ∀ v, v ∈ l ↔ (v.truthy = true ∧
          ∃ n ∈ pairStore.nodes, n.label = pyStrip "fase" ∧ getProp n.props "name" = some v) :=
  c6_get_node_names_amended "fase" pairStore (by decide)

/-- C8: when either endpoint of `create_relation_by_name` matches no node,
no relationship is created, the store is unchanged, and the call returns the
`None` no-op sentinel instead of a failure. -/
theorem c8_missing_endpoint_noop (sl sn el en rt : String) (properties : Option PropMap)
    (st : GraphStore)
    (hsl : validIdent (pyStrip sl) = true) (hel : validIdent (pyStrip el) = true)
    (hrt : validIdent (pyStrip rt) = true)
    (hmiss :
      (∀ n ∈ st.nodes, ¬(n.label = pyStrip sl ∧ getProp n.props "name" = some (PyVal.vstr sn)))
      ∨ (∀ n ∈ st.nodes, ¬(n.label = pyStrip el ∧ getProp n.props "name" = some (PyVal.vstr en)))) :
    create_relation_by_name sl sn el en rt properties st = Except.ok (none, st) := by
  simp only [create_relation_by_name, quote_label_ok hsl, quote_label_ok hel,
    quote_reltype_ok hrt]
  rcases hmiss with hs | he
  · rw [filter_nodes_eq_nil hs]
    rfl
  · rw [filter_nodes_eq_nil he]
    have : (st.nodes.filter (fun n => n.label == pyStrip sl
        && getProp n.props "name" == some (PyVal.vstr sn))).flatMap
          (fun a => ([] : List Node).map (fun b => (a, b))) = [] := by
      simp
    rw [this]

theorem c8_missing_endpoint_noop_witness :
    create_relation_by_name "fase" "A" "role" "Missing" "NEXT" none pairStore
      = Except.ok (none, pairStore) :=
  c8_missing_endpoint_noop "fase" "A" "role" "Missing" "NEXT" none pairStore
    (by decide) (by decide) (by decide) (Or.inr (by decide))

theorem pyGet_eq {q : PropMap} {k : String} {v : PyVal} (h : getProp q k = some v) :
    pyGet q k = v := by
  unfold pyGet
  rw [h]
  rfl

theorem truthyKey_name_of {q : PropMap} {X : String} (hX : X ≠ "")
    (h : getProp q "name" = some (PyVal.vstr X)) : truthyKey q "name" = true := by
  unfold truthyKey
  rw [pyGet_eq h]
  simp [PyVal.truthy, hX]

theorem map_id_of_forall {α : Type} {f : α → α} {l : List α} (h : ∀ x ∈ l, f x = x) :
    l.map f = l := by
  induction l with
  | nil => rfl
  | cons a t ih => simp [h a (by simp), ih (fun x hx => h x (by simp [hx]))]

theorem create_node_updates (label : String) (q : PropMap) (st : GraphStore) (nd : Node)
    (hlab : validIdent (pyStrip label) = true)
    (hn : truthyKey q "name" = true)
    (hfind : findNodeByProp st (pyStrip label) "name" (pyGet q "name") = some nd) :
    create_node label q st = Except.ok (nd.nid, updateNodeProps st nd.nid q) := by
  simp [create_node, hn, quote_label_ok hlab, hfind]

theorem create_node_creates (label : String) (q : PropMap) (st : GraphStore)
    (hlab : validIdent (pyStrip label) = true)
    (hn : truthyKey q "name" = true)
    (hfindname : findNodeByProp st (pyStrip label) "name" (pyGet q "name") = none)
    (hfindmerge : findNodeByProp st (pyStrip label) (mergeKeyOf q) (pyGet q (mergeKeyOf q))
      = none) :
    create_node label q st = Except.ok (st.nextId,
      { st with
        nodes := st.nodes ++
          [⟨st.nextId, pyStrip label, plusEq [(mergeKeyOf q, pyGet q (mergeKeyOf q))] q⟩],
        nextId := st.nextId + 1 }) := by
  cases he : truthyKey q "emailaddress" <;>
    simp only [mergeKeyOf, he, if_true, if_false, Bool.false_eq_true,
      Bool.true_eq_false] at hfindmerge ⊢ <;>
    simp [create_node, hn, he, quote_label_ok hlab, hfindname, hfindmerge]

/-- C3: when a node of the label with the given `name` exists, `create_node`
updates that node in place and returns its identity — no new node, and the
`emailaddress` merge key (whatever it is) is never consulted. -/
theorem c3_name_match_priority (label X : String) (q : PropMap) (st : GraphStore) (nd : Node)
    (hlab : validIdent (pyStrip label) = true)
    (hX : X ≠ "")
    (hname : getProp q "name" = some (PyVal.vstr X))
    (hfound : findNodeByProp st (pyStrip label) "name" (PyVal.vstr X) = some nd) :
    create_node label q st = Except.ok (nd.nid, updateNodeProps st nd.nid q)
    ∧ (updateNodeProps st nd.nid q).nodes.length = st.nodes.length := by
  constructor
  · exact create_node_updates label q st nd hlab (truthyKey_name_of hX hname)
      (by rw [pyGet_eq hname]; exact hfound)
  · simp [updateNodeProps]

theorem c3_name_match_priority_witness :
    create_node "fase" [("name", PyVal.vstr "A"), ("emailaddress", PyVal.vstr "other")]
        pairStore
      = Except.ok (0, updateNodeProps pairStore 0
          [("name", PyVal.vstr "A"), ("emailaddress", PyVal.vstr "other")])
    ∧ (updateNodeProps pairStore 0
        [("name", PyVal.vstr "A"), ("emailaddress", PyVal.vstr "other")]).nodes.length
      = pairStore.nodes.length :=
  c3_name_match_priority "fase" "A"
    [("name", PyVal.vstr "A"), ("emailaddress", PyVal.vstr "other")] pairStore
    ⟨0, "fase", [("name", PyVal.vstr "A")]⟩
    (by decide) (by decide) (by decide) (by decide)

/-- C4: starting from a store with no node of the label named `X`,
`insert_node` returns the fresh identity the first time and `None` the
second time, the second call performing no mutation, and the store then
holds exactly one such node. -/
theorem c4_insert_twice (label X : String) (q : PropMap) (st : GraphStore)
    (hlab : validIdent (pyStrip label) = true) (hX : X ≠ "")
    (hname : getProp q "name" = some (PyVal.vstr X))
    (hq : noNullProps q) (hk : nodupKeys q)
    (hnone : ∀ n ∈ st.nodes,
      ¬(n.label = pyStrip label ∧ getProp n.props "name" = some (PyVal.vstr X))) :
    ∃ st₁,
      insert_node label q st = Except.ok (some st.nextId, st₁)
      ∧ insert_node label q st₁ = Except.ok (none, st₁)
      ∧ st₁.nodes.countP (fun n => n.label == pyStrip label
          && getProp n.props "name" == some (PyVal.vstr X)) = 1 := by
  have hp : pyGet q "name" = PyVal.vstr X := pyGet_eq hname
  have htr : (pyGet q "name").truthy = true := by
    rw [hp]
    simp [PyVal.truthy, hX]
  have hname' : getProp (plusEq [] q) "name" = some (PyVal.vstr X) := by
    rw [getProp_plusEq q [] "name" hq hk, hname]
    rfl
  have hfind : findNodeByProp st (pyStrip label) "name" (pyGet q "name") = none := by
    rw [hp]
    exact findNodeByProp_eq_none.mpr hnone
  refine ⟨{ st with
      nodes := st.nodes ++ [⟨st.nextId, pyStrip label, plusEq [] q⟩],
      nextId := st.nextId + 1 }, ?_, ?_, ?_⟩
  · simp [insert_node, htr, quote_label_ok hlab, hfind]
  · have hfind2 : findNodeByProp
        { st with
          nodes := st.nodes ++ [⟨st.nextId, pyStrip label, plusEq [] q⟩],
          nextId := st.nextId + 1 }
        (pyStrip label) "name" (pyGet q "name")
        = some ⟨st.nextId, pyStrip label, plusEq [] q⟩ := by
      unfold findNodeByProp at hfind ⊢
      rw [List.find?_append, hfind]
      simp [hname', hp]
    simp [insert_node, htr, quote_label_ok hlab, hfind2]
  · have h0 : st.nodes.countP (fun n => n.label == pyStrip label
        && getProp n.props "name" == some (PyVal.vstr X)) = 0 :=
      List.countP_eq_zero.mpr (fun n hn => by simpa [beq_iff_eq] using hnone n hn)
    show (st.nodes ++ [(⟨st.nextId, pyStrip label, plusEq [] q⟩ : Node)]).countP _ = 1
    rw [List.countP_append, h0]
    simp [List.countP_cons, hname']

theorem c4_insert_twice_witness :
    ∃ st₁,
      insert_node "fase" [("name", PyVal.vstr "A")] emptyStore
        = Except.ok (some emptyStore.nextId, st₁)
      ∧ insert_node "fase" [("name", PyVal.vstr "A")] st₁ = Except.ok (none, st₁)
      ∧ st₁.nodes.countP (fun n => n.label == pyStrip "fase"
          && getProp n.props "name" == some (PyVal.vstr "A")) = 1 :=
  c4_insert_twice "fase" "A" [("name", PyVal.vstr "A")] emptyStore
    (by decide) (by decide) (by decide) (by decide) (by decide) (by decide)

/-- C1: two successive upserts of maps carrying the same name `X` into a
store with no node of the label named `X` (nor one matching the first map's
`emailaddress` merge key) leave exactly one node of that label named `X`,
whose property map is the union of the two maps with the second taking
precedence on overlapping keys, both calls returning the same identity. -/
theorem c1_upsert_twice_converges (label X : String) (q1 q2 : PropMap) (st : GraphStore)
    (hlab : validIdent (pyStrip label) = true) (hX : X ≠ "")
    (h1name : getProp q1 "name" = some (PyVal.vstr X))
    (h2name : getProp q2 "name" = some (PyVal.vstr X))
    (hn1 : noNullProps q1) (hk1 : nodupKeys q1)
    (hn2 : noNullProps q2) (hk2 : nodupKeys q2)
    (hfresh : ∀ n ∈ st.nodes, n.nid < st.nextId)
    (hnone : ∀ n ∈ st.nodes,
      ¬(n.label = pyStrip label ∧ getProp n.props "name" = some (PyVal.vstr X)))
    (hemail : truthyKey q1 "emailaddress" = true → ∀ n ∈ st.nodes,
      n.label = pyStrip label →
      getProp n.props "emailaddress" ≠ some (pyGet q1 "emailaddress")) :
    ∃ st₁ st₂,
      create_node label q1 st = Except.ok (st.nextId, st₁)
      ∧ create_node label q2 st₁ = Except.ok (st.nextId, st₂)
      ∧ st₂.nodes.countP (fun n => n.label == pyStrip label
          && getProp n.props "name" == some (PyVal.vstr X)) = 1
      ∧ ∃ nd ∈ st₂.nodes, nd.label = pyStrip label
          ∧ getProp nd.props "name" = some (PyVal.vstr X)
          ∧ ∀ k, getProp nd.props k = (getProp q2 k).or (getProp q1 k) := by
  have hp1 : pyGet q1 "name" = PyVal.vstr X := pyGet_eq h1name
  have hp2 : pyGet q2 "name" = PyVal.vstr X := pyGet_eq h2name
  have hn1' : truthyKey q1 "name" = true := truthyKey_name_of hX h1name
  have hn2' : truthyKey q2 "name" = true := truthyKey_name_of hX h2name
  have hfind1 : findNodeByProp st (pyStrip label) "name" (pyGet q1 "name") = none := by
    rw [hp1]
    exact findNodeByProp_eq_none.mpr hnone
  have hfindmerge : findNodeByProp st (pyStrip label) (mergeKeyOf q1)
      (pyGet q1 (mergeKeyOf q1)) = none := by
    cases he : truthyKey q1 "emailaddress"
    · simp only [mergeKeyOf, he, Bool.false_eq_true, if_false]
      exact hfind1
    · simp only [mergeKeyOf, he, if_true]
      exact findNodeByProp_eq_none.mpr (fun n hn hc => hemail he n hn hc.1 hc.2)
  have hmk : ∃ v, getProp q1 (mergeKeyOf q1) = some v := by
    cases he : truthyKey q1 "emailaddress"
    · simp only [mergeKeyOf, he, Bool.false_eq_true, if_false]
      exact ⟨_, h1name⟩
    · simp only [mergeKeyOf, he, if_true]
      obtain ⟨v, hv, _⟩ := (truthyKey_eq_true_iff q1 "emailaddress").mp he
      exact ⟨v, hv⟩
  have hbase : ∀ k, getProp q1 k = none →
      getProp [(mergeKeyOf q1, pyGet q1 (mergeKeyOf q1))] k = none := by
    intro k hk0
    obtain ⟨v, hv⟩ := hmk
    have hne : mergeKeyOf q1 ≠ k := by
      intro e
      rw [e, hk0] at hv
      cases hv
    rw [getProp_cons, if_neg (by simpa [beq_iff_eq] using hne)]
    rfl
  have hnd1get : ∀ k,
      getProp (plusEq [(mergeKeyOf q1, pyGet q1 (mergeKeyOf q1))] q1) k
        = (getProp q1 k).or (getProp [(mergeKeyOf q1, pyGet q1 (mergeKeyOf q1))] k) :=
    fun k => getProp_plusEq q1 _ k hn1 hk1
  have hnd1name :
      getProp (plusEq [(mergeKeyOf q1, pyGet q1 (mergeKeyOf q1))] q1) "name"
        = some (PyVal.vstr X) := by
    rw [hnd1get, h1name]
    rfl
  have hnd2get : ∀ k,
      getProp (plusEq (plusEq [(mergeKeyOf q1, pyGet q1 (mergeKeyOf q1))] q1) q2) k
        = (getProp q2 k).or (getProp (plusEq [(mergeKeyOf q1, pyGet q1 (mergeKeyOf q1))] q1) k) :=
    fun k => getProp_plusEq q2 _ k hn2 hk2
  have hnd2name :
      getProp (plusEq (plusEq [(mergeKeyOf q1, pyGet q1 (mergeKeyOf q1))] q1) q2) "name"
        = some (PyVal.vstr X) := by
    rw [hnd2get, h2name]
    rfl
  refine ⟨{ st with
      nodes := st.nodes ++
        [⟨st.nextId, pyStrip label, plusEq [(mergeKeyOf q1, pyGet q1 (mergeKeyOf q1))] q1⟩],
      nextId := st.nextId + 1 },
    { st with
      nodes := st.nodes ++
        [⟨st.nextId, pyStrip label,
          plusEq (plusEq [(mergeKeyOf q1, pyGet q1 (mergeKeyOf q1))] q1) q2⟩],
      nextId := st.nextId + 1 }, ?_, ?_, ?_, ?_⟩
  · exact create_node_creates label q1 st hlab hn1' hfind1 hfindmerge
  · have hfind2X : List.find?
        (fun n => n.label == pyStrip label && getProp n.props "name" == some (PyVal.vstr X))
        (st.nodes ++
          [⟨st.nextId, pyStrip label, plusEq [(mergeKeyOf q1, pyGet q1 (mergeKeyOf q1))] q1⟩])
        = some ⟨st.nextId, pyStrip label,
            plusEq [(mergeKeyOf q1, pyGet q1 (mergeKeyOf q1))] q1⟩ := by
      rw [List.find?_append]
      have ha : List.find?
          (fun n => n.label == pyStrip label && getProp n.props "name" == some (PyVal.vstr X))
          st.nodes = none := findNodeByProp_eq_none.mpr hnone
      rw [ha]
      simp [List.find?_cons, hnd1name]
    have hthis := create_node_updates label q2
      { st with
        nodes := st.nodes ++
          [⟨st.nextId, pyStrip label, plusEq [(mergeKeyOf q1, pyGet q1 (mergeKeyOf q1))] q1⟩],
        nextId := st.nextId + 1 }
      ⟨st.nextId, pyStrip label, plusEq [(mergeKeyOf q1, pyGet q1 (mergeKeyOf q1))] q1⟩
      hlab hn2' (by rw [hp2]; exact hfind2X)
    rw [hthis]
    show Except.ok (st.nextId, updateNodeProps _ st.nextId q2) = _
    have hupd : updateNodeProps
        { st with
          nodes := st.nodes ++
            [⟨st.nextId, pyStrip label, plusEq [(mergeKeyOf q1, pyGet q1 (mergeKeyOf q1))] q1⟩],
          nextId := st.nextId + 1 }
        st.nextId q2
        = { st with
            nodes := st.nodes ++
              [⟨st.nextId, pyStrip label,
                plusEq (plusEq [(mergeKeyOf q1, pyGet q1 (mergeKeyOf q1))] q1) q2⟩],
            nextId := st.nextId + 1 } := by
      unfold updateNodeProps
      congr 1
      show (st.nodes ++
          [(⟨st.nextId, pyStrip label,
            plusEq [(mergeKeyOf q1, pyGet q1 (mergeKeyOf q1))] q1⟩ : Node)]).map
          _ = _
      rw [List.map_append]
      congr 1
      · exact map_id_of_forall (fun n hn => by
          have hne : (n.nid == st.nextId) = false :=
            beq_eq_false_iff_ne.mpr (Nat.ne_of_lt (hfresh n hn))
          simp [hne])
      · simp
    rw [hupd]
  · show (st.nodes ++
        [(⟨st.nextId, pyStrip label,
          plusEq (plusEq [(mergeKeyOf q1, pyGet q1 (mergeKeyOf q1))] q1) q2⟩ : Node)]).countP
        _ = 1
    have h0 : st.nodes.countP (fun n => n.label == pyStrip label
        && getProp n.props "name" == some (PyVal.vstr X)) = 0 :=
      List.countP_eq_zero.mpr (fun n hn => by simpa [beq_iff_eq] using hnone n hn)
    rw [List.countP_append, h0]
    simp [List.countP_cons, hnd2name]
  · refine ⟨⟨st.nextId, pyStrip label,
        plusEq (plusEq [(mergeKeyOf q1, pyGet q1 (mergeKeyOf q1))] q1) q2⟩,
      by simp, rfl, hnd2name, ?_⟩
    intro k
    show getProp (plusEq (plusEq [(mergeKeyOf q1, pyGet q1 (mergeKeyOf q1))] q1) q2) k = _
    rw [hnd2get k, hnd1get k]
    cases hq2 : getProp q2 k
    · cases hq1 : getProp q1 k
      · simp [Option.or, hbase k hq1]
      · simp [Option.or]
    · simp [Option.or]

theorem c1_upsert_twice_converges_witness :
    ∃ st₁ st₂,
      create_node "fase" [("name", PyVal.vstr "A"), ("x", PyVal.vstr "1")] emptyStore
        = Except.ok (emptyStore.nextId, st₁)
      ∧ create_node "fase" [("name", PyVal.vstr "A"), ("y", PyVal.vstr "2")] st₁
        = Except.ok (emptyStore.nextId, st₂)
      ∧ st₂.nodes.countP (fun n => n.label == pyStrip "fase"
          && getProp n.props "name" == some (PyVal.vstr "A")) = 1
      ∧ ∃ nd ∈ st₂.nodes, nd.label = pyStrip "fase"
          ∧ getProp nd.props "name" = some (PyVal.vstr "A")
          ∧ ∀ k, getProp nd.props k
              = (getProp [("name", PyVal.vstr "A"), ("y", PyVal.vstr "2")] k).or
                  (getProp [("name", PyVal.vstr "A"), ("x", PyVal.vstr "1")] k) :=
  c1_upsert_twice_converges "fase" "A"
    [("name", PyVal.vstr "A"), ("x", PyVal.vstr "1")]
    [("name", PyVal.vstr "A"), ("y", PyVal.vstr "2")] emptyStore
    (by decide) (by decide) (by decide) (by decide) (by decide) (by decide)
    (by decide) (by decide) (by decide) (by decide) (fun h => by cases h)

/-- C5: with both endpoints resolving to single nodes and no pre-existing
edge of the type between them, two `create_relation_by_name` calls with the
same endpoints and type leave exactly one edge of that type from the start
node to the end node, both calls returning the same identity, with the
second call's properties overwriting the first's. -/
theorem c5_relationship_merge_idempotent (sl sn el en rt : String) (p1 p2 : PropMap)
    (st : GraphStore) (a b : Node)
    (hsl : validIdent (pyStrip sl) = true) (hel : validIdent (pyStrip el) = true)
    (hrt : validIdent (pyStrip rt) = true)
    (hn1 : noNullProps p1) (hk1 : nodupKeys p1)
    (hn2 : noNullProps p2) (hk2 : nodupKeys p2)
    (ha : st.nodes.filter (fun n => n.label == pyStrip sl
        && getProp n.props "name" == some (PyVal.vstr sn)) = [a])
    (hb : st.nodes.filter (fun n => n.label == pyStrip el
        && getProp n.props "name" == some (PyVal.vstr en)) = [b])
    (hfresh : ∀ r ∈ st.rels, r.rid < st.nextId)
    (hnorel : ∀ r ∈ st.rels, ¬(r.src = a.nid ∧ r.dst = b.nid ∧ r.typ = pyStrip rt)) :
    ∃ st₁ st₂,
      create_relation_by_name sl sn el en rt (some p1) st = Except.ok (some st.nextId, st₁)
      ∧ create_relation_by_name sl sn el en rt (some p2) st₁ = Except.ok (some st.nextId, st₂)
      ∧ st₂.rels.countP (fun r => r.src == a.nid && r.dst == b.nid
          && r.typ == pyStrip rt) = 1
      ∧ ∃ r ∈ st₂.rels, r.src = a.nid ∧ r.dst = b.nid ∧ r.typ = pyStrip rt
          ∧ ∀ k, getProp r.props k = (getProp p2 k).or (getProp p1 k) := by
  have hrelfind : st.rels.find? (fun r => r.src == a.nid && r.dst == b.nid
      && r.typ == pyStrip rt) = none := by
    rw [List.find?_eq_none]
    intro r hr
    have hcon := hnorel r hr
    simp only [beq_iff_eq, Bool.and_eq_true]
    tauto
  have hmr1 : mergeRel st a.nid b.nid (pyStrip rt) p1
      = (st.nextId, { st with
          rels := st.rels ++ [⟨st.nextId, a.nid, b.nid, pyStrip rt, plusEq [] p1⟩],
          nextId := st.nextId + 1 }) := by
    unfold mergeRel
    rw [hrelfind]
  have hrelfind2 : (st.rels ++ [(⟨st.nextId, a.nid, b.nid, pyStrip rt,
      plusEq [] p1⟩ : Edge)]).find?
      (fun r => r.src == a.nid && r.dst == b.nid && r.typ == pyStrip rt)
      = some ⟨st.nextId, a.nid, b.nid, pyStrip rt, plusEq [] p1⟩ := by
    rw [List.find?_append, hrelfind]
    simp [List.find?_cons]
  have hmr2 : mergeRel { st with
        rels := st.rels ++ [⟨st.nextId, a.nid, b.nid, pyStrip rt, plusEq [] p1⟩],
        nextId := st.nextId + 1 }
      a.nid b.nid (pyStrip rt) p2
      = (st.nextId, { st with
          rels := st.rels ++
            [⟨st.nextId, a.nid, b.nid, pyStrip rt, plusEq (plusEq [] p1) p2⟩],
          nextId := st.nextId + 1 }) := by
    unfold mergeRel
    show (match (st.rels ++ [(⟨st.nextId, a.nid, b.nid, pyStrip rt,
        plusEq [] p1⟩ : Edge)]).find?
        (fun r => r.src == a.nid && r.dst == b.nid && r.typ == pyStrip rt) with
      | some r => _
      | none => _) = _
    rw [hrelfind2]
    show Prod.mk st.nextId _ = _
    refine congrArg _ ?_
    congr 1
    show ((st.rels ++ [(⟨st.nextId, a.nid, b.nid, pyStrip rt, plusEq [] p1⟩ : Edge)]).map
      _) = _
    rw [List.map_append]
    congr 1
    · exact map_id_of_forall (fun r hr => by
        have hne : (r.rid == st.nextId) = false :=
          beq_eq_false_iff_ne.mpr (Nat.ne_of_lt (hfresh r hr))
        simp [hne])
    · simp
  refine ⟨{ st with
      rels := st.rels ++ [⟨st.nextId, a.nid, b.nid, pyStrip rt, plusEq [] p1⟩],
      nextId := st.nextId + 1 },
    { st with
      rels := st.rels ++
        [⟨st.nextId, a.nid, b.nid, pyStrip rt, plusEq (plusEq [] p1) p2⟩],
      nextId := st.nextId + 1 }, ?_, ?_, ?_, ?_⟩
  · simp only [create_relation_by_name, quote_label_ok hsl, quote_label_ok hel,
      quote_reltype_ok hrt]
    rw [ha, hb]
    simp [hmr1]
  · simp only [create_relation_by_name, quote_label_ok hsl, quote_label_ok hel,
      quote_reltype_ok hrt]
    rw [show ({ st with
        rels := st.rels ++ [⟨st.nextId, a.nid, b.nid, pyStrip rt, plusEq [] p1⟩],
        nextId := st.nextId + 1 } : GraphStore).nodes = st.nodes from rfl, ha, hb]
    simp [hmr2]
  · show (st.rels ++ [(⟨st.nextId, a.nid, b.nid, pyStrip rt,
        plusEq (plusEq [] p1) p2⟩ : Edge)]).countP _ = 1
    have h0 : st.rels.countP (fun r => r.src == a.nid && r.dst == b.nid
        && r.typ == pyStrip rt) = 0 := by
      rw [List.countP_eq_zero]
      intro r hr
      have hcon := hnorel r hr
      simp only [beq_iff_eq, Bool.and_eq_true]
      tauto
    rw [List.countP_append, h0]
    simp [List.countP_cons]
  · refine ⟨⟨st.nextId, a.nid, b.nid, pyStrip rt, plusEq (plusEq [] p1) p2⟩,
      by simp, rfl, rfl, rfl, ?_⟩
    intro k
    show getProp (plusEq (plusEq [] p1) p2) k = _
    rw [getProp_plusEq p2 _ k hn2 hk2, getProp_plusEq p1 _ k hn1 hk1]
    cases hq2 : getProp p2 k
    · cases hq1 : getProp p1 k <;> simp [Option.or, getProp]
    · simp [Option.or]

theorem c5_relationship_merge_idempotent_witness :
    ∃ st₁ st₂,
      create_relation_by_name "fase" "A" "role" "B" "NEXT"
          (some [("w", PyVal.vstr "1")]) pairStore
        = Except.ok (some pairStore.nextId, st₁)
      ∧ create_relation_by_name "fase" "A" "role" "B" "NEXT"
          (some [("w", PyVal.vstr "2")]) st₁
        = Except.ok (some pairStore.nextId, st₂)
      ∧ st₂.rels.countP (fun r => r.src == (0 : Nat) && r.dst == (1 : Nat)
          && r.typ == pyStrip "NEXT") = 1
      ∧ ∃ r ∈ st₂.rels, r.src = (0 : Nat) ∧ r.dst = (1 : Nat) ∧ r.typ = pyStrip "NEXT"
          ∧ ∀ k, getProp r.props k
              = (getProp [("w", PyVal.vstr "2")] k).or (getProp [("w", PyVal.vstr "1")] k) :=
  c5_relationship_merge_idempotent "fase" "A" "role" "B" "NEXT"
    [("w", PyVal.vstr "1")] [("w", PyVal.vstr "2")] pairStore
    ⟨0, "fase", [("name", PyVal.vstr "A")]⟩ ⟨1, "role", [("name", PyVal.vstr "B")]⟩
    (by decide) (by decide) (by decide) (by decide) (by decide) (by decide) (by decide)
    (by decide) (by decide) (by decide) (by decide)
